import Mathlib

/-!
Shallow embedding of the gsheets ingestion flow
(examples/simple_gsheets/complete_flow.py) and proofs about it.

The embedding models:
- loosely typed spreadsheet cells (strings or numbers) as `Cell`;
- the pandas operations used by `normalize_source` (string casts,
  string concatenation of the Year/Month/Day columns, `pd.to_datetime`
  on the combined string, `astype(float)` on the Value column) as
  executable functions returning `Option`, where `none` stands for the
  exception pandas raises, which aborts the whole call;
- the loop structure of `gsheets_flow` (which branches get constructed,
  and which value is bound to the `records` variable handed to
  `normalize_source`) as `gsheets_flow_branches`;
- the TSN client and `deploy_primitive_if_needed` as explicit state
  passing plus a call trace;
- the intra-branch scheduling constraints created by the Prefect
  `submit`/`wait_for` structure as a dependency list `taskDeps`.
-/

namespace GSheets

/-- A loosely typed spreadsheet cell: the source columns hold strings or
numbers as provided by the sheet. -/
inductive Cell where
  | str : String → Cell
  | num : Int → Cell
deriving DecidableEq

/-- One raw row of the sheet with the columns `normalize_source` touches:
Year, Month, an optional Day column (the code overwrites it with 1),
ID and Value. -/
structure RawRow where
  year : Cell
  month : Cell
  day : Option Cell
  id : Cell
  value : Cell
deriving DecidableEq

/-- A day-granularity date, the result of `pd.to_datetime` in the model. -/
structure Date where
  year : Nat
  month : Nat
  day : Nat
deriving DecidableEq

/-- The canonical record produced by `normalize_source`: columns
date, value, source_id. -/
structure CanonicalRecord where
  date : Date
  value : Rat
  source_id : Cell
deriving DecidableEq

/-- Split a character list at every occurrence of `sep`; models how a
date string is decomposed into whitespace-separated fields. -/
def splitOnChar (sep : Char) : List Char → List (List Char)
  | [] => [[]]
  | c :: cs =>
    if c = sep then [] :: splitOnChar sep cs
    else
      match splitOnChar sep cs with
      | [] => [[c]]
      | p :: ps => (c :: p) :: ps

/-- Parse a nonempty all-digit character list as a natural number. -/
def natOfDigits (cs : List Char) : Option Nat :=
  if cs ≠ [] ∧ cs.all (fun c => c.isDigit) then
    some (cs.foldl (fun a c => 10 * a + (c.toNat - 48)) 0)
  else none

/-- Month names understood by the date parser model. -/
def monthNames : List (String × Nat) :=
  [("Jan", 1), ("Feb", 2), ("Mar", 3), ("Apr", 4), ("May", 5), ("Jun", 6),
   ("Jul", 7), ("Aug", 8), ("Sep", 9), ("Oct", 10), ("Nov", 11), ("Dec", 12),
   ("January", 1), ("February", 2), ("March", 3), ("April", 4),
   ("June", 6), ("July", 7), ("August", 8), ("September", 9),
   ("October", 10), ("November", 11), ("December", 12)]

/-- Parse a month field: a known month name, or a number 1..12. -/
def parseMonth (cs : List Char) : Option Nat :=
  match (monthNames.find? (fun p => p.1.data == cs)).map (fun p => p.2) with
  | some n => some n
  | none =>
    match natOfDigits cs with
    | some n => if 1 ≤ n ∧ n ≤ 12 then some n else none
    | none => none

/-- Model of `pd.to_datetime` restricted to the year-month-day strings the
flow builds: three whitespace-separated fields, numeric year, month name
or number, numeric day in 1..31; anything else raises (is `none`). -/
def to_datetime (cs : List Char) : Option Date :=
  match splitOnChar ' ' cs with
  | [y, m, d] =>
    match natOfDigits y with
    | none => none
    | some yn =>
      match parseMonth m with
      | none => none
      | some mn =>
        match natOfDigits d with
        | none => none
        | some dn => if 1 ≤ dn ∧ dn ≤ 31 then some ⟨yn, mn, dn⟩ else none
  | _ => none

/-- Model of `.astype(str)` on a cell: strings pass through, numbers are
rendered in decimal. -/
def astype_str : Cell → List Char
  | .str s => s.data
  | .num n => (toString n).data

/-- Parse an unsigned decimal string (with an optional fractional part)
as a rational; models the strings `float(...)` accepts. -/
def parseFloatDigits (cs : List Char) : Option Rat :=
  match splitOnChar '.' cs with
  | [w] => (natOfDigits w).map (fun n => (n : Rat))
  | [w, f] =>
    match natOfDigits w, natOfDigits f with
    | some wn, some fn => some ((wn : Rat) + (fn : Rat) / ((10 : Rat) ^ f.length))
    | _, _ => none
  | _ => none

/-- Model of `.astype(float)` on a single cell: numbers convert, strings
must be decimal literals (optionally negative); otherwise pandas raises. -/
def parseFloatCell : Cell → Option Rat
  | .num n => some ((n : Rat))
  | .str s =>
    match s.data with
    | '-' :: rest => (parseFloatDigits rest).map (fun q => -q)
    | cs => parseFloatDigits cs

/-- The per-row content of `normalize_source` (complete_flow.py lines
105-121): the Day column is overwritten with the constant 1, the date is
built from `Year.astype(str) + ' ' + Month + ' ' + Day.astype(str)`
(so the Month cell must already be a string or pandas raises a
TypeError on the concatenation), the value is `Value.astype(float)`,
and ID is carried through as source_id.  `none` models the exception
pandas raises on that row. -/
def normalizeRow (r : RawRow) : Option CanonicalRecord :=
  match r.month with
  | .num _ => none
  | .str m =>
    match to_datetime (astype_str r.year ++ (' ' :: (m.data ++ (' ' :: ['1'])))) with
    | none => none
    | some d =>
      match parseFloatCell r.value with
      | none => none
      | some v => some ⟨d, v, r.id⟩

/-- Whole-table `normalize_source`: the pandas column operations are
vectorized, so an exception on any single row aborts the entire call;
on success every row is normalized, in order. -/
def normalize_source : List RawRow → Option (List CanonicalRecord)
  | [] => some []
  | r :: rest =>
    match normalizeRow r with
    | none => none
    | some c =>
      match normalize_source rest with
      | none => none
      | some cs => some (c :: cs)

/-- A dynamically typed Python value as bound to the `records` variable of
the flow: either a raw-row table (a DataFrame) or a plain string. -/
inductive PyVal where
  | table : List RawRow → PyVal
  | strV : String → PyVal
deriving DecidableEq

/-- Whether a Python value is a raw-row table. -/
def PyVal.isTable : PyVal → Bool
  | .table _ => true
  | .strV _ => false

/-- Calling the task `normalize_source` on a dynamically typed value:
on a table it runs the normalization; on a string it raises an
AttributeError at `df.copy()` (a string is not a DataFrame), modelled
as `none`. -/
def normalize_source_py : PyVal → Option (List CanonicalRecord)
  | .table rows => normalize_source rows
  | .strV _ => none

/-- One row of the `primitive_sources.csv` catalog, with the columns the
flow reads: source_type, stream_id, source_id. -/
structure CatalogRow where
  source_type : String
  stream_id : String
  source_id : String
deriving DecidableEq

/-- Order-preserving deduplication keeping first occurrences, with an
accumulator of already seen values; models pandas `Series.unique()`. -/
def uniqueAux : List String → List String → List String
  | _, [] => []
  | seen, x :: xs => if x ∈ seen then uniqueAux seen xs else x :: uniqueAux (x :: seen) xs

/-- Models `sources_df["source_type"].unique().tolist()`. -/
def uniqueStrings (l : List String) : List String := uniqueAux [] l

/-- Models `source_type.startswith("gsheets:")`. -/
def providerTagged (t : String) : Bool :=
  List.isPrefixOf ("gsheets:".data) t.data

/-- Models `source_type.split(":")[1]`, the locator part of a tagged
source type. -/
def extractLocator (t : String) : Option String :=
  ((splitOnChar ':' t.data)[1]?).map (fun cs => String.mk cs)

/-- The list comprehension of complete_flow.py lines 45-49: the locators
extracted from the distinct source_type values carrying the gsheets tag.
On every tagged value the split has a second part, so `filterMap` drops
nothing. -/
def gsheetsIds (rows : List CatalogRow) : List String :=
  ((uniqueStrings (rows.map (fun r => r.source_type))).filter providerTagged).filterMap
    extractLocator

/-- One pipeline branch as constructed by the nested loops of
`gsheets_flow` (lines 58-87): the outer-loop locator, the inner-loop
catalog row (whose stream_id is deployed, read and written, and whose
source_id is used for filtering), and the value bound to the `records`
variable that is handed to `normalize_source`. -/
structure Branch where
  gsheets_id : String
  entry : CatalogRow
  records : PyVal
deriving DecidableEq

/-- The (locator, row) pairs enumerated by the nested loops of
`gsheets_flow` (lines 58-87) together with the value the `records`
variable holds in each: line 62 (`records = (gsheets_id)`) binds the
locator string itself, since `read_gsheet` is never called.  This is the
static loop structure only; execution never reaches most of these
iterations, because the synchronous type error raised by calling
`normalize_source` on the locator string aborts both loops in the first
inner iteration — see `gsheets_flow_run` for the faithful execution
model. -/
def gsheets_flow_branches (sources_df : List CatalogRow) : List Branch :=
  (gsheetsIds sources_df).flatMap
    (fun gid => sources_df.map (fun row => ⟨gid, row, PyVal.strV gid⟩))

/-- Outcome of running the flow body: normal completion, or the
AttributeError raised inside `normalize_source` when `records` is a
string rather than a DataFrame. -/
inductive FlowOutcome where
  | ok
  | typeError
deriving DecidableEq

/-- A task submission performed by the flow body, in program order:
`deploy_primitive_if_needed.submit` (line 68),
`get_all_tsn_records.submit` (line 80), `reconcile_data.submit`
(line 83), `insert_tsn_records.submit` (line 86), each tagged with the
stream_id of the catalog row being processed. -/
inductive FlowEvent where
  | submit_deploy : String → FlowEvent
  | submit_read : String → FlowEvent
  | submit_reconcile : String → FlowEvent
  | submit_insert : String → FlowEvent
deriving DecidableEq

/-- Whether an event is the submission of the destination write. -/
def isInsertEvent : FlowEvent → Bool
  | .submit_insert _ => true
  | _ => false

/-- The inner loop of `gsheets_flow` (lines 66-87) over all catalog rows:
each iteration submits the deploy task for the row, then calls
`normalize_source` synchronously on `records`; if that call raises (it
always does in real runs, since `records` is the locator string), the
exception aborts the whole flow at once, with only the events emitted so
far; otherwise the iteration goes on to submit the read, reconcile and
insert tasks and the loop continues. -/
def runInner (records : PyVal) : List CatalogRow → FlowOutcome × List FlowEvent
  | [] => (FlowOutcome.ok, [])
  | row :: rest =>
    match normalize_source_py records with
    | none => (FlowOutcome.typeError, [FlowEvent.submit_deploy row.stream_id])
    | some _ =>
      let r := runInner records rest
      (r.1, FlowEvent.submit_deploy row.stream_id :: FlowEvent.submit_read row.stream_id ::
        FlowEvent.submit_reconcile row.stream_id :: FlowEvent.submit_insert row.stream_id :: r.2)

/-- The outer loop of `gsheets_flow` (line 58) over the extracted
locators, binding `records` to the locator string before entering the
inner loop; an exception in the inner loop aborts the remaining
iterations. -/
def runOuter (rows : List CatalogRow) : List String → FlowOutcome × List FlowEvent
  | [] => (FlowOutcome.ok, [])
  | gid :: rest =>
    match runInner (PyVal.strV gid) rows with
    | (FlowOutcome.ok, evs) =>
      let r := runOuter rows rest
      (r.1, evs ++ r.2)
    | (FlowOutcome.typeError, evs) => (FlowOutcome.typeError, evs)

/-- Faithful execution model of the `gsheets_flow` body: the outcome of
the run and the ordered trace of task submissions it performs. -/
def gsheets_flow_run (sources_df : List CatalogRow) : FlowOutcome × List FlowEvent :=
  runOuter sources_df (gsheetsIds sources_df)

/-- The destination state visible to the flow: which streams exist and
which are initialized. -/
structure TSNState where
  streams : List String
  initialized : List String
deriving DecidableEq

/-- A call issued to the TSN client by `deploy_primitive_if_needed`. -/
inductive TSNCall where
  | stream_exists : String → TSNCall
  | deploy_stream : String → TSNCall
  | init_stream : String → TSNCall
deriving DecidableEq

/-- Whether a client call is a provisioning call (create or initialize),
as opposed to a pure existence query. -/
def isProvisioningCall : TSNCall → Bool
  | .stream_exists _ => false
  | .deploy_stream _ => true
  | .init_stream _ => true

/-- Models `client.stream_exists`. -/
def stream_exists (st : TSNState) (sid : String) : Bool :=
  st.streams.contains sid

/-- Models `client.deploy_stream`. -/
def deploy_stream (st : TSNState) (sid : String) : TSNState :=
  ⟨sid :: st.streams, st.initialized⟩

/-- Models `client.init_stream`. -/
def init_stream (st : TSNState) (sid : String) : TSNState :=
  ⟨st.streams, sid :: st.initialized⟩

/-- The task `deploy_primitive_if_needed` (lines 92-103): query existence;
if the stream exists do nothing more, otherwise deploy then initialize.
Returns the new destination state and the trace of client calls issued. -/
def deploy_primitive_if_needed (sid : String) (st : TSNState) : TSNState × List TSNCall :=
  if stream_exists st sid then (st, [TSNCall.stream_exists sid])
  else
    (init_stream (deploy_stream st sid) sid,
     [TSNCall.stream_exists sid, TSNCall.deploy_stream sid, TSNCall.init_stream sid])

/-- The steps of one pipeline branch as submitted by lines 68-87. -/
inductive BranchTask where
  | ensure_ready
  | candidates
  | read_existing
  | reconcile
  | write
deriving DecidableEq, Fintype

/-- The structural dependencies among the steps of one branch, as created
by the code: `get_all_tsn_records.submit(..., wait_for=[deployment_job])`
makes the existing-records read depend on the deploy task; the reconcile
task receives the existing-records future and the candidate records
(computed in the flow body before the submission); the insert task
receives the reconcile future. -/
def taskDeps : BranchTask → List BranchTask
  | .ensure_ready => []
  | .candidates => []
  | .read_existing => [.ensure_ready]
  | .reconcile => [.read_existing, .candidates]
  | .write => [.reconcile]

/-! ## Helper lemmas about the split function -/

/-- Splitting never yields an empty list of parts. -/
theorem splitOnChar_ne_nil (sep : Char) (cs : List Char) : splitOnChar sep cs ≠ [] := by
  induction cs with
  | nil => simp [splitOnChar]
  | cons c cs ih =>
    by_cases hc : c = sep
    · simp [splitOnChar, hc]
    · simp only [splitOnChar, if_neg hc]
      cases h : splitOnChar sep cs with
      | nil => simp
      | cons p ps => simp

/-- The number of parts is the number of separators plus one. -/
theorem length_splitOnChar (sep : Char) (cs : List Char) :
    (splitOnChar sep cs).length = cs.count sep + 1 := by
  induction cs with
  | nil => simp [splitOnChar]
  | cons c cs ih =>
    by_cases hc : c = sep
    · subst hc
      have hb : (c == c) = true := by simp
      simp only [splitOnChar, if_pos rfl, List.length_cons, List.count_cons, hb, if_true, ih]
    · simp only [splitOnChar, if_neg hc]
      cases h : splitOnChar sep cs with
      | nil => exact absurd h (splitOnChar_ne_nil sep cs)
      | cons p ps =>
        rw [h] at ih
        have hb : (c == sep) = false := by simpa using hc
        simp only [List.length_cons, List.count_cons, hb, Bool.false_eq_true, if_false] at ih ⊢
        omega

/-- A separator-free list splits into itself alone. -/
theorem splitOnChar_no_sep (sep : Char) (cs : List Char) (h : sep ∉ cs) :
    splitOnChar sep cs = [cs] := by
  induction cs with
  | nil => rfl
  | cons c cs ih =>
    have hc : ¬ c = sep := by
      rintro rfl
      exact h (List.mem_cons_self c cs)
    have h2 : sep ∉ cs := fun hm => h (List.mem_cons_of_mem _ hm)
    simp [splitOnChar, if_neg hc, ih h2]

/-- Splitting a list that starts with a separator-free chunk followed by a
separator peels off that chunk as the first part. -/
theorem splitOnChar_append (sep : Char) (a rest : List Char) (h : sep ∉ a) :
    splitOnChar sep (a ++ sep :: rest) = a :: splitOnChar sep rest := by
  induction a with
  | nil => simp [splitOnChar]
  | cons c a ih =>
    have hc : ¬ c = sep := by
      rintro rfl
      exact h (List.mem_cons_self c a)
    have h2 : sep ∉ a := fun hm => h (List.mem_cons_of_mem _ hm)
    simp only [List.cons_append, splitOnChar, if_neg hc, List.append_eq]
    rw [ih h2]

/-! ## Helper lemmas about normalization -/

/-- Any date the flow builds has day component 1: the third
whitespace-separated field of the combined string is the constant "1"
whenever the parse can succeed at all. -/
theorem to_datetime_day_one (a b : List Char) (d : Date)
    (h : to_datetime (a ++ (' ' :: (b ++ (' ' :: ['1'])))) = some d) : d.day = 1 := by
  unfold to_datetime at h
  split at h
  case h_2 => exact absurd h (by simp)
  case h_1 y m dd heq =>
    have hlen := length_splitOnChar ' ' (a ++ (' ' :: (b ++ (' ' :: ['1']))))
    rw [heq] at hlen
    have e1 : (('1' : Char) == ' ') = false := by decide
    have e2 : ((' ' : Char) == ' ') = true := by decide
    simp only [List.length_cons, List.length_nil, List.count_append, List.count_cons,
      List.count_nil, e1, e2, if_true, if_false] at hlen
    have ha : ' ' ∉ a := by
      rw [← List.count_eq_zero (a := ' ')]
      omega
    have hb : ' ' ∉ b := by
      rw [← List.count_eq_zero (a := ' ')]
      omega
    have hsplit : splitOnChar ' ' (a ++ (' ' :: (b ++ (' ' :: ['1']))))
        = a :: b :: [['1']] := by
      rw [splitOnChar_append ' ' a _ ha, splitOnChar_append ' ' b _ hb,
        splitOnChar_no_sep ' ' ['1'] (by decide)]
    rw [heq] at hsplit
    injection hsplit with h1 hsplit
    injection hsplit with h2 hsplit
    injection hsplit with h3 _
    subst h3
    cases hy : natOfDigits y with
    | none =>
      rw [hy] at h
      exact absurd h (by simp)
    | some yn =>
      rw [hy] at h
      cases hm2 : parseMonth m with
      | none =>
        rw [hm2] at h
        exact absurd h (by simp)
      | some mn =>
        rw [hm2] at h
        have hdd : natOfDigits ['1'] = some 1 := rfl
        rw [hdd] at h
        simp only [Nat.le_refl, true_and, Nat.reduceLeDiff, if_true, and_self,
          Option.some.injEq, reduceIte] at h
        subst h
        rfl

/-- On success, `normalize_source` maps each input row to exactly one
output record, positionally. -/
theorem normalize_source_eq_map (df : List RawRow) (out : List CanonicalRecord)
    (h : normalize_source df = some out) :
    df.map normalizeRow = out.map some := by
  induction df generalizing out with
  | nil =>
    simp only [normalize_source] at h
    injection h with h
    subst h
    simp
  | cons a t ih =>
    cases h1 : normalizeRow a with
    | none =>
      simp only [normalize_source, h1] at h
      exact absurd h (by simp)
    | some c =>
      simp only [normalize_source, h1] at h
      cases h2 : normalize_source t with
      | none =>
        rw [h2] at h
        exact absurd h (by simp)
      | some cs =>
        rw [h2] at h
        injection h with h
        subst h
        simp [h1, ih cs h2]

/-- Every output record of a successful normalization comes from some
input row. -/
theorem normalize_source_mem (df : List RawRow) (out : List CanonicalRecord)
    (r : CanonicalRecord) (h : normalize_source df = some out) (hr : r ∈ out) :
    ∃ raw, raw ∈ df ∧ normalizeRow raw = some r := by
  have hm := normalize_source_eq_map df out h
  have : some r ∈ df.map normalizeRow := by
    rw [hm]
    exact List.mem_map_of_mem some hr
  obtain ⟨raw, hraw, heq⟩ := List.mem_map.mp this
  exact ⟨raw, hraw, heq⟩

/-- A row the per-row normalization rejects makes the whole call fail. -/
theorem normalize_source_of_bad_row (df : List RawRow) (r : RawRow)
    (hmem : r ∈ df) (hbad : normalizeRow r = none) :
    normalize_source df = none := by
  induction df with
  | nil => cases hmem
  | cons a t ih =>
    rcases List.mem_cons.mp hmem with rfl | hm
    · simp [normalize_source, hbad]
    · have ht := ih hm
      cases h1 : normalizeRow a <;> simp [normalize_source, h1, ht]

/-- The per-row normalization never reads the Day column. -/
theorem normalizeRow_day_irrel (r : RawRow) (x : Option Cell) :
    normalizeRow ⟨r.year, r.month, x, r.id, r.value⟩ = normalizeRow r := by
  cases r
  rfl

/-- A successfully normalized row has day component 1 in its date. -/
theorem normalizeRow_day_one (raw : RawRow) (c : CanonicalRecord)
    (h : normalizeRow raw = some c) : c.date.day = 1 := by
  obtain ⟨ry, rmo, rd, rid, rv⟩ := raw
  cases rmo with
  | num n => exact absurd h (by simp [normalizeRow])
  | str m =>
    simp only [normalizeRow] at h
    cases hd : to_datetime (astype_str ry ++ (' ' :: (m.data ++ (' ' :: ['1'])))) with
    | none =>
      rw [hd] at h
      exact absurd h (by simp)
    | some d =>
      rw [hd] at h
      cases hv : parseFloatCell rv with
      | none =>
        rw [hv] at h
        exact absurd h (by simp)
      | some v =>
        rw [hv] at h
        injection h with h
        subst h
        exact to_datetime_day_one _ _ _ hd

/-! ## Helper lemma about the flow execution -/

/-- Characterization of every run of the flow body: with no supported
locator the run completes having submitted nothing; with at least one
supported locator the run aborts with the type error raised by
normalize_source in the first inner iteration, having submitted exactly
the deploy task of the first catalog row. -/
theorem gsheets_flow_run_spec (rows : List CatalogRow) :
    (gsheetsIds rows = [] → gsheets_flow_run rows = (FlowOutcome.ok, [])) ∧
    (∀ r rest, rows = r :: rest → gsheetsIds rows ≠ [] →
      gsheets_flow_run rows = (FlowOutcome.typeError, [FlowEvent.submit_deploy r.stream_id])) := by
  constructor
  · intro h
    unfold gsheets_flow_run
    rw [h]
    rfl
  · intro r rest hrow hne
    unfold gsheets_flow_run
    cases hg : gsheetsIds rows with
    | nil => exact absurd hg hne
    | cons g gs =>
      rw [hrow]
      rfl

/-! ## Claim C1 -/

/-- Claim C1: the claim says the input handed to the Normalizer is the
fetched raw-row table for the locator of the entry.  In the code, line 62
binds the records variable to the parenthesized locator string itself and
never calls read_gsheet (imported but unused), so on a catalog with the
single supported entry gsheets:ABC the value handed to normalize_source
is the string ABC, which is not a table at all, and running
normalize_source on it fails with an attribute error. -/
theorem c1_normalizer_input_is_locator :
    (gsheets_flow_branches [⟨"gsheets:ABC", "st1", "src1"⟩]).map (fun b => b.records)
        = [PyVal.strV "ABC"] ∧
    PyVal.isTable (PyVal.strV "ABC") = false ∧
    normalize_source_py (PyVal.strV "ABC") = none :=
  ⟨by decide, rfl, rfl⟩

/-! ## Claim C2 -/

/-- Claim C2, counterexample to the claim as stated: a two-row input in
which only the second row is malformed (non-numeric value field) makes
the whole normalize call fail; the first row, although individually
normalizable, is not returned. -/
theorem c2_counterexample :
    normalize_source
      [⟨.str "2023", .str "Jan", none, .str "src1", .str "10"⟩,
       ⟨.str "2023", .str "Jan", none, .str "src2", .str "abc"⟩] = none ∧
    normalizeRow ⟨.str "2023", .str "Jan", none, .str "src1", .str "10"⟩
        = some ⟨⟨2023, 1, 1⟩, (10 : Rat), .str "src1"⟩ ∧
    normalizeRow ⟨.str "2023", .str "Jan", none, .str "src2", .str "abc"⟩ = none :=
  ⟨by decide, by decide, by decide⟩

/-- Claim C2 as amended: a single row that fails to parse causes the
entire normalize call to fail (the vectorized pandas operations raise
for the whole call); no rows are returned in that case. -/
theorem c2_single_bad_row_fails_whole_call (df : List RawRow) (r : RawRow)
    (hmem : r ∈ df) (hbad : normalizeRow r = none) :
    normalize_source df = none :=
  normalize_source_of_bad_row df r hmem hbad

/-- Witness for the amended C2 theorem at a concrete input. -/
theorem c2_witness :
    normalize_source
      [⟨.str "2024", .str "Feb", none, .str "a", .str "5"⟩,
       ⟨.str "2024", .str "Feb", none, .str "b", .str "oops"⟩] = none :=
  c2_single_bad_row_fails_whole_call _
    ⟨.str "2024", .str "Feb", none, .str "b", .str "oops"⟩ (by decide) (by decide)

/-! ## Claim C3 -/

/-- Claim C3, counterexample to the claim as stated: on a catalog with a
single supported entry, the run does not process that entry exactly once;
it aborts with the type error raised by normalize_source on the
unfetched locator string, and the write of the entry is never submitted
(zero completed branches, not one). -/
theorem c3_counterexample :
    (gsheets_flow_run [⟨"gsheets:A", "s1", "x"⟩]).1 = FlowOutcome.typeError ∧
    (gsheets_flow_run [⟨"gsheets:A", "s1", "x"⟩]).2.countP
      (fun e => decide (e = FlowEvent.submit_insert "s1")) = 0 ∧
    ¬ ((gsheets_flow_run [⟨"gsheets:A", "s1", "x"⟩]).2.countP
      (fun e => decide (e = FlowEvent.submit_insert "s1")) = 1) := by
  decide

/-- Claim C3 as amended: no catalog entry is ever processed into a
complete pipeline branch.  No run submits any insert task at all; and
whenever the catalog contains a supported entry, the flow aborts with a
type error in the first inner-loop iteration, having submitted only the
deploy task for the first catalog row. -/
theorem c3_no_branch_completes (rows : List CatalogRow) :
    (gsheets_flow_run rows).2.countP isInsertEvent = 0 ∧
    (∀ r rest, rows = r :: rest → gsheetsIds rows ≠ [] →
      gsheets_flow_run rows = (FlowOutcome.typeError, [FlowEvent.submit_deploy r.stream_id])) := by
  have hspec := gsheets_flow_run_spec rows
  refine ⟨?_, hspec.2⟩
  by_cases hg : gsheetsIds rows = []
  · rw [hspec.1 hg]
    rfl
  · have hex : ∃ r rest, rows = r :: rest := by
      cases rows with
      | nil => exact absurd rfl hg
      | cons a b => exact ⟨a, b, rfl⟩
    obtain ⟨r, rest, hrow⟩ := hex
    rw [hspec.2 r rest hrow hg]
    rfl

/-- Witness for the amended C3 theorem at a concrete two-entry catalog. -/
theorem c3_witness :
    (gsheets_flow_run [⟨"gsheets:A", "s1", "x"⟩, ⟨"gsheets:B", "s2", "y"⟩]).2.countP
        isInsertEvent = 0 ∧
    gsheets_flow_run [⟨"gsheets:A", "s1", "x"⟩, ⟨"gsheets:B", "s2", "y"⟩]
        = (FlowOutcome.typeError, [FlowEvent.submit_deploy "s1"]) :=
  ⟨(c3_no_branch_completes [⟨"gsheets:A", "s1", "x"⟩, ⟨"gsheets:B", "s2", "y"⟩]).1,
   (c3_no_branch_completes [⟨"gsheets:A", "s1", "x"⟩, ⟨"gsheets:B", "s2", "y"⟩]).2
     ⟨"gsheets:A", "s1", "x"⟩ [⟨"gsheets:B", "s2", "y"⟩] rfl (by decide)⟩

/-! ## Claim C4 -/

/-- Claim C4, counterexample to the claim as stated: in a catalog listing
an unsupported csv entry first and a supported gsheets entry second, the
unsupported entry is not skipped: its deploy task is submitted (it is the
first inner-loop row), and the run then raises rather than proceeding
without error. -/
theorem c4_counterexample :
    FlowEvent.submit_deploy "s2" ∈
      (gsheets_flow_run [⟨"csv:Z", "s2", "y"⟩, ⟨"gsheets:A", "s1", "x"⟩]).2 ∧
    (gsheets_flow_run [⟨"csv:Z", "s2", "y"⟩, ⟨"gsheets:A", "s1", "x"⟩]).1
      = FlowOutcome.typeError := by
  decide

/-- Claim C4 as amended: the provider tag gates only locator extraction.
A catalog with no supported entry is skipped entirely, submitting nothing
and raising no error; but when a supported locator exists, processing
does not skip unsupported entries: the deploy task for the first catalog
row is submitted whatever its provider tag, and the run then aborts with
a type error. -/
theorem c4_unsupported_not_skipped (rows : List CatalogRow) :
    (gsheetsIds rows = [] → gsheets_flow_run rows = (FlowOutcome.ok, [])) ∧
    (∀ r rest, rows = r :: rest → gsheetsIds rows ≠ [] →
      FlowEvent.submit_deploy r.stream_id ∈ (gsheets_flow_run rows).2) := by
  have hspec := gsheets_flow_run_spec rows
  refine ⟨hspec.1, ?_⟩
  intro r rest hrow hne
  rw [hspec.2 r rest hrow hne]
  exact List.mem_cons_self _ _

/-- Witness for the amended C4 theorem at concrete catalogs: an
unsupported-only catalog submits nothing, and in a mixed catalog with the
unsupported entry first, that entry gets its deploy submitted. -/
theorem c4_witness :
    gsheets_flow_run [⟨"csv:Z", "s2", "y"⟩] = (FlowOutcome.ok, []) ∧
    FlowEvent.submit_deploy "s2" ∈
      (gsheets_flow_run [⟨"csv:Z", "s2", "y"⟩, ⟨"gsheets:A", "s1", "x"⟩]).2 :=
  ⟨(c4_unsupported_not_skipped [⟨"csv:Z", "s2", "y"⟩]).1 (by decide),
   (c4_unsupported_not_skipped [⟨"csv:Z", "s2", "y"⟩, ⟨"gsheets:A", "s1", "x"⟩]).2
     ⟨"csv:Z", "s2", "y"⟩ [⟨"gsheets:A", "s1", "x"⟩] rfl (by decide)⟩

/-! ## Claim C6 -/

/-- Claim C6: in every schedule that respects the dependency edges the
code creates between the submitted tasks of one branch (a task starts
only after each of its dependencies has finished), the read of existing
records starts no earlier than the completion of ensure_ready, and the
write starts no earlier than both the completion of the existing-records
read and the completion of the candidates computation. -/
theorem c6_branch_ordering (s f : BranchTask → Nat)
    (hdur : ∀ t, s t ≤ f t)
    (hdep : ∀ t d, d ∈ taskDeps t → f d ≤ s t) :
    f .ensure_ready ≤ s .read_existing ∧
    f .read_existing ≤ s .write ∧
    f .candidates ≤ s .write := by
  refine ⟨hdep .read_existing .ensure_ready (by decide), ?_, ?_⟩
  · exact le_trans (hdep .reconcile .read_existing (by decide))
      (le_trans (hdur .reconcile) (hdep .write .reconcile (by decide)))
  · exact le_trans (hdep .reconcile .candidates (by decide))
      (le_trans (hdur .reconcile) (hdep .write .reconcile (by decide)))

/-- Start times of a concrete valid schedule of one branch, used by the
C6 witness. -/
def demoStart : BranchTask → Nat
  | .ensure_ready => 0
  | .candidates => 0
  | .read_existing => 2
  | .reconcile => 4
  | .write => 6

/-- Finish times of the concrete schedule used by the C6 witness. -/
def demoFinish (t : BranchTask) : Nat := demoStart t + 1

/-- Witness for the C6 theorem at a concrete schedule. -/
theorem c6_witness :
    demoFinish .ensure_ready ≤ demoStart .read_existing ∧
    demoFinish .read_existing ≤ demoStart .write ∧
    demoFinish .candidates ≤ demoStart .write :=
  c6_branch_ordering demoStart demoFinish (by decide) (by decide)

/-! ## Claim C7 -/

/-- Claim C7: when the destination reports that the stream already
exists, deploy_primitive_if_needed leaves the destination state
unchanged and issues only the existence query, no create and no
initialize call; consequently a second call in sequence issues no
provisioning call either. -/
theorem c7_ensure_ready_idempotent (st : TSNState) (sid : String)
    (h : stream_exists st sid = true) :
    deploy_primitive_if_needed sid st = (st, [TSNCall.stream_exists sid]) ∧
    (deploy_primitive_if_needed sid st).2.countP isProvisioningCall = 0 ∧
    ((deploy_primitive_if_needed sid (deploy_primitive_if_needed sid st).1).2).countP
      isProvisioningCall = 0 := by
  have h1 : deploy_primitive_if_needed sid st = (st, [TSNCall.stream_exists sid]) := by
    simp [deploy_primitive_if_needed, h]
  refine ⟨h1, ?_, ?_⟩
  · simp [h1, isProvisioningCall]
  · simp [h1, isProvisioningCall]

/-- Witness for the C7 theorem at a concrete destination state. -/
theorem c7_witness :
    deploy_primitive_if_needed "st1" ⟨["st1"], ["st1"]⟩
        = (⟨["st1"], ["st1"]⟩, [TSNCall.stream_exists "st1"]) ∧
    (deploy_primitive_if_needed "st1" ⟨["st1"], ["st1"]⟩).2.countP isProvisioningCall = 0 ∧
    ((deploy_primitive_if_needed "st1"
        (deploy_primitive_if_needed "st1" ⟨["st1"], ["st1"]⟩).1).2).countP
      isProvisioningCall = 0 :=
  c7_ensure_ready_idempotent ⟨["st1"], ["st1"]⟩ "st1" (by decide)

/-! ## Claim C8 -/

/-- Claim C8: when normalization succeeds, the output has exactly one
record per input row, positionally: the record at index i is the
normalization of the row at index i, so relative input order is
preserved and each surviving row maps to exactly one output record. -/
theorem c8_order_preserving (df : List RawRow) (out : List CanonicalRecord)
    (h : normalize_source df = some out) :
    out.length = df.length ∧
    ∀ (i : Nat) (hi : i < df.length) (ho : i < out.length),
      normalizeRow (df.get ⟨i, hi⟩) = some (out.get ⟨i, ho⟩) := by
  have hm := normalize_source_eq_map df out h
  have hlen : df.length = out.length := by
    have h2 := congrArg List.length hm
    simpa using h2
  refine ⟨hlen.symm, ?_⟩
  intro i hi ho
  have h2 : (df.map normalizeRow)[i]? = (out.map some)[i]? := by rw [hm]
  rw [List.getElem?_map, List.getElem?_map, List.getElem?_eq_getElem hi,
    List.getElem?_eq_getElem ho] at h2
  simp only [Option.map_some'] at h2
  simp only [List.get_eq_getElem]
  exact Option.some.inj h2

/-- Witness for the C8 theorem at a concrete two-row input. -/
theorem c8_witness :
    ([⟨⟨2023, 1, 1⟩, (10 : Rat), .str "s1"⟩,
      ⟨⟨2023, 2, 1⟩, (20 : Rat), .str "s2"⟩] : List CanonicalRecord).length
        = ([⟨.str "2023", .str "Jan", none, .str "s1", .str "10"⟩,
            ⟨.str "2023", .str "Feb", none, .str "s2", .str "20"⟩] : List RawRow).length ∧
    normalizeRow (([⟨.str "2023", .str "Jan", none, .str "s1", .str "10"⟩,
        ⟨.str "2023", .str "Feb", none, .str "s2", .str "20"⟩] : List RawRow).get ⟨1, by decide⟩)
      = some (([⟨⟨2023, 1, 1⟩, (10 : Rat), .str "s1"⟩,
          ⟨⟨2023, 2, 1⟩, (20 : Rat), .str "s2"⟩] : List CanonicalRecord).get ⟨1, by decide⟩) := by
  have h := c8_order_preserving
    [⟨.str "2023", .str "Jan", none, .str "s1", .str "10"⟩,
     ⟨.str "2023", .str "Feb", none, .str "s2", .str "20"⟩]
    [⟨⟨2023, 1, 1⟩, (10 : Rat), .str "s1"⟩, ⟨⟨2023, 2, 1⟩, (20 : Rat), .str "s2"⟩]
    (by decide)
  exact ⟨h.1, h.2 1 (by decide) (by decide)⟩

/-! ## Claim C9 -/

/-- Claim C9: every timestamp produced by a successful normalization has
day component 1, and the Day column of the input never influences the
output: overwriting it with any values gives the same result. -/
theorem c9_day_constant :
    (∀ (df : List RawRow) (out : List CanonicalRecord),
      normalize_source df = some out → ∀ r ∈ out, r.date.day = 1) ∧
    (∀ (df : List RawRow) (g : RawRow → Option Cell),
      normalize_source (df.map (fun r => ⟨r.year, r.month, g r, r.id, r.value⟩)) =
        normalize_source df) := by
  constructor
  · intro df out h r hr
    obtain ⟨raw, _, hraw⟩ := normalize_source_mem df out r h hr
    exact normalizeRow_day_one raw r hraw
  · intro df g
    induction df with
    | nil => rfl
    | cons a t ih =>
      simp only [List.map_cons, normalize_source, normalizeRow_day_irrel, ih]

/-- Witness for the C9 theorem at a concrete input, also exercising the
irrelevance of a concrete Day value. -/
theorem c9_witness :
    (⟨⟨2023, 1, 1⟩, (10 : Rat), Cell.str "s1"⟩ : CanonicalRecord).date.day = 1 ∧
    normalize_source
        (([⟨.str "2023", .str "Jan", none, .str "s1", .str "10"⟩] : List RawRow).map
          (fun r => ⟨r.year, r.month, some (Cell.num 27), r.id, r.value⟩))
      = normalize_source [⟨.str "2023", .str "Jan", none, .str "s1", .str "10"⟩] :=
  ⟨c9_day_constant.1 [⟨.str "2023", .str "Jan", none, .str "s1", .str "10"⟩]
      [⟨⟨2023, 1, 1⟩, (10 : Rat), Cell.str "s1"⟩] (by decide)
      ⟨⟨2023, 1, 1⟩, (10 : Rat), Cell.str "s1"⟩ (by decide),
   c9_day_constant.2 [⟨.str "2023", .str "Jan", none, .str "s1", .str "10"⟩]
      (fun _ => some (Cell.num 27))⟩

/-! ## Claim C10 -/

/-- Claim C10: on any nonempty input table whose Month column holds only
numeric (non-string) cells, the string concatenation used to build the
date raises for the whole call, so normalization fails entirely. -/
theorem c10_numeric_month_fails (df : List RawRow) (hne : df ≠ [])
    (hnum : ∀ r ∈ df, ∃ n : Int, r.month = Cell.num n) :
    normalize_source df = none := by
  cases df with
  | nil => exact absurd rfl hne
  | cons a t =>
    obtain ⟨n, hn⟩ := hnum a (List.mem_cons_self a t)
    have hbad : normalizeRow a = none := by
      obtain ⟨ry, rmo, rd, rid, rv⟩ := a
      simp only at hn
      subst hn
      rfl
    simp [normalize_source, hbad]

/-- Witness for the C10 theorem at a concrete one-row input with a
numeric Month cell. -/
theorem c10_witness :
    normalize_source [⟨Cell.str "2023", Cell.num 1, none, Cell.str "x", Cell.str "10"⟩]
      = none :=
  c10_numeric_month_fails _ (List.cons_ne_nil _ _)
    (by
      intro r hr
      simp only [List.mem_singleton] at hr
      subst hr
      exact ⟨1, rfl⟩)

end GSheets
